import Mathlib

/-!
Verification development for the txingest-classifier repository.

The Rust sources under `src/` are shallowly embedded below:
* machine integers (`u64`, `u16`) are modelled as `Nat` (no arithmetic here
  approaches `2^64`, and where the *partiality* of `u64` subtraction matters it
  is modelled explicitly with `Option`-valued checked subtraction);
* `HashMap`/`HashSet` are modelled as association lists / lists of distinct
  elements, with insertion order standing in for the (unspecified) hash-map
  iteration order;
* `IpAddr`, `Pubkey` and `Signature` are opaque comparable identities,
  modelled as `Nat`;
* fallible or panicking operations are modelled with `Option`.
-/

namespace TxIngest

abbrev IpAddr := Nat
abbrev Pubkey := Nat
abbrev Signature := Nat

/-! ### Association-list maps (embedding of Rust `HashMap`) -/

/-- First binding of key `k`, as `HashMap::get`. -/
def alist_find? {κ β : Type} [DecidableEq κ] : List (κ × β) → κ → Option β
  | [], _ => none
  | (k', v) :: rest, k => if k' = k then some v else alist_find? rest k

/-- Replacing insert, as `HashMap::insert` (replaces the first binding of the
key, appends a fresh binding at the end otherwise). -/
def alist_insert {κ β : Type} [DecidableEq κ] : List (κ × β) → κ → β → List (κ × β)
  | [], k, v => [(k, v)]
  | (k', v') :: rest, k, v =>
    if k' = k then (k, v) :: rest else (k', v') :: alist_insert rest k v

theorem alist_find?_insert_self {κ β : Type} [DecidableEq κ] (m : List (κ × β)) (k : κ) (v : β) :
    alist_find? (alist_insert m k v) k = some v := by
  induction m with
  | nil => simp [alist_insert, alist_find?]
  | cons p rest ih =>
    by_cases h : p.1 = k
    · simp [alist_insert, alist_find?, h]
    · simp [alist_insert, alist_find?, h, ih]

theorem alist_find?_insert_ne {κ β : Type} [DecidableEq κ] (m : List (κ × β)) (k k' : κ) (v : β)
    (h : k ≠ k') : alist_find? (alist_insert m k v) k' = alist_find? m k' := by
  induction m with
  | nil => simp [alist_insert, alist_find?, h]
  | cons p rest ih =>
    by_cases hp : p.1 = k
    · simp [alist_insert, alist_find?, hp, h]
    · simp only [alist_insert, hp, if_false, alist_find?]
      by_cases hp' : p.1 = k'
      · simp [alist_find?, hp']
      · simp [alist_find?, hp', ih]

theorem alist_find?_append_of_none {κ β : Type} [DecidableEq κ]
    (m m' : List (κ × β)) (k : κ) (h : alist_find? m k = none) :
    alist_find? (m ++ m') k = alist_find? m' k := by
  induction m with
  | nil => simp
  | cons p rest ih =>
    by_cases hp : p.1 = k
    · simp [alist_find?, hp] at h
    · simp only [alist_find?, hp, if_false] at h
      simp [alist_find?, hp, ih h]

/-! ### Constants (src/src/state.rs lines 11-13, src/src/group.rs line 5) -/

def DEFAULT_USELESS_QUIC_CONNECTION_DURATION_MS : Nat := 2 * 1000
def TX_RETENTION_DURATION_MS : Nat := 2 * 60 * 1000
def PEER_RETENTION_DURATION_MS : Nat := 3 * 24 * 60 * 60 * 1000
def DEFAULT_GROUP_EXPIRATION_SECONDS : Nat := 24 * 60 * 60

/-! ### Fee and Tx ledger (src/src/state.rs lines 64-123) -/

structure Fee where
  total : Nat
  cu_limit : Nat
  cu_used : Nat
deriving DecidableEq

/-- `State::new` sets `zero_fee : Fee { total : 0, cu_limit : 1, cu_used : 1 }`
(src/src/state.rs line 154); the field is constant so it is embedded as a
global definition. -/
def zero_fee : Fee := ⟨0, 1, 1⟩

structure SubmittedTx where
  timestamp : Nat
  submitter : IpAddr
deriving DecidableEq

structure Tx where
  submitters : List IpAddr
  submissions : List SubmittedTx
  fee : Option Fee
deriving DecidableEq

def Tx.new (timestamp : Nat) (first_submitter : IpAddr) : Tx :=
  ⟨[first_submitter], [⟨timestamp, first_submitter⟩], none⟩

/-- `Tx::submitted` (src/src/state.rs lines 98-113). -/
def Tx.submitted (tx : Tx) (timestamp : Nat) (submitter : IpAddr) : Tx :=
  if tx.submitters.contains submitter then tx
  else { tx with
         submitters := tx.submitters ++ [submitter],
         submissions := tx.submissions ++ [⟨timestamp, submitter⟩] }

/-- One `add_value` call made to each configured fee classification while a Tx
is being evicted in `State::periodic`: the submitter and the submission's own
timestamp, together with the `Fee` chosen for that submission. -/
structure Emission where
  submitter : IpAddr
  timestamp : Nat
  fee_used : Fee
deriving DecidableEq

/-- The per-submission fee choice of `State::periodic` (src/src/state.rs lines
486-507): index 0 gets the landed fee when present, otherwise and for every
index ≥ 1 the sentinel `zero_fee`. -/
def tx_emissions (tx : Tx) : List Emission :=
  match tx.submissions with
  | [] => []
  | first :: rest =>
    ⟨first.submitter, first.timestamp, tx.fee.getD zero_fee⟩ ::
      rest.map (fun sub => ⟨sub.submitter, sub.timestamp, zero_fee⟩)

/-- Eviction test of the `retain` closure (src/src/state.rs line 485):
`tx.submissions[0].timestamp < retain_timestamp`.  The Rust indexing panics on
an empty submissions list; every `Tx` is created with one submission and
submissions are never removed, so the default is never reached. -/
def tx_is_evicted (retain_timestamp : Nat) (tx : Tx) : Bool :=
  (tx.submissions.headD ⟨0, 0⟩).timestamp < retain_timestamp

/-- All emissions of all evicted txs, in ledger order (src/src/state.rs lines
484-514). -/
def drain_emissions (retain_timestamp : Nat) (txs : List (Signature × Tx)) : List Emission :=
  ((txs.filter (fun p => tx_is_evicted retain_timestamp p.2)).map
    (fun p => tx_emissions p.2)).flatten

/-- The three derived values fed per emission (src/src/state.rs lines 492-506):
`fee.total`, `(fee.total * 1000) / fee.cu_limit`, `(fee.total * 1000) / fee.cu_used`. -/
def emission_values (e : Emission) : Nat × Nat × Nat :=
  (e.fee_used.total, e.fee_used.total * 1000 / e.fee_used.cu_limit,
    e.fee_used.total * 1000 / e.fee_used.cu_used)

/-- The two per-CU divisions for every emission of an evicted tx have nonzero
divisors (Rust `u64` division panics on a zero divisor). -/
def tx_divisions_defined (tx : Tx) : Bool :=
  (tx_emissions tx).all (fun e => e.fee_used.cu_limit != 0 && e.fee_used.cu_used != 0)

/-! ### Group registry

Modelled from the spec: the Group registry with `add(ip, expiry)` /
`periodic(now)` (§4.A of the spec) is code of this repository that is not
present under `src/` — `src/src/group.rs` is a stale variant without `add`,
while its callers `src/src/threshold.rs` (`Group::new`, `Group::add`) and
`src/src/state.rs` (`group.periodic(now)`) fix this interface.  The definitions
follow the spec's words: `add` inserts an absent ip and emits an Add line,
raises a lower expiry and emits an Update line, and otherwise does nothing;
`periodic` removes every entry with `expiry < now`, emitting Remove lines. -/

inductive GroupEvent where
  | add (ip : IpAddr) (group_name : String) (expiration : Nat)
  | update (ip : IpAddr) (group_name : String) (expiration : Nat)
  | remove (ip : IpAddr) (group_name : String)
deriving DecidableEq

structure Group where
  name : String
  members : List (IpAddr × Nat)
deriving DecidableEq

def Group.new (name : String) : Group := ⟨name, []⟩

/-- Modelled from the spec: §4.A `add(ip, expiry)`. -/
def Group.add (g : Group) (ip : IpAddr) (expiration : Nat) : Group × List GroupEvent :=
  match alist_find? g.members ip with
  | none =>
    ({ g with members := g.members ++ [(ip, expiration)] }, [.add ip g.name expiration])
  | some e =>
    if e < expiration then
      ({ g with members := alist_insert g.members ip expiration }, [.update ip g.name expiration])
    else (g, [])

/-- Modelled from the spec: §4.A `periodic(now)` removes every entry with
`expiry < now`. -/
def Group.periodic (g : Group) (now : Nat) : Group × List GroupEvent :=
  (⟨g.name, g.members.filter (fun p => !(p.2 < now : Bool))⟩,
    (g.members.filter (fun p => (p.2 < now : Bool))).map (fun p => .remove p.1 g.name))

/-- Folding a sequence of `add` calls, discarding the emitted lines. -/
def Group.add_all (g : Group) (ops : List (IpAddr × Nat)) : Group :=
  ops.foldl (fun g p => (g.add p.1 p.2).1) g

/-! ### Threshold (src/src/threshold.rs) -/

inductive ThresholdType where
  | GreaterThan
  | GreaterThanOrEqual
  | LessThan
  | LessThanOrEqual
deriving DecidableEq

inductive ValueOperation where
  | Sum
  | Average
deriving DecidableEq

structure TimestampedValue where
  timestamp : Nat
  value : Nat
deriving DecidableEq

structure Threshold where
  group_name : Option String
  group_expiration_seconds : Option Nat
  low_stake : Option Nat
  high_stake : Option Nat
  min_value_count : Option Nat
  value_operation : ValueOperation
  threshold_type : ThresholdType
  value : Nat
  duration_ms : Nat
  continue_after_match : Option Bool
deriving DecidableEq

/-- The stake-band gate of `Threshold::stop_after_exceeded` (src/src/threshold.rs
lines 131-146): `true` iff none of its early `return false` paths is taken.
An ip with no stakes entry is treated as stake 0. -/
def Threshold.stake_gate (t : Threshold) (stakes : List (IpAddr × Nat)) (ip_addr : IpAddr) : Bool :=
  match t.low_stake, t.high_stake with
  | some low, some high =>
    let stake := (alist_find? stakes ip_addr).getD 0
    !(stake < low) && !(stake > high)
  | some low, none => !((alist_find? stakes ip_addr).getD 0 < low)
  | none, some high => !((alist_find? stakes ip_addr).getD 0 > high)
  | none, none => true

/-- The window of `Threshold::stop_after_exceeded` (src/src/threshold.rs lines
148-163): the entries with `timestamp ≥ now - duration_ms`.  The `u64`
subtraction is embedded as truncated `Nat` subtraction here; its partiality is
settled separately with `threshold_use_timestamp?`. -/
def Threshold.window (t : Threshold) (now : Nat) (recent_values : List TimestampedValue) :
    List TimestampedValue :=
  recent_values.filter (fun v => !(v.timestamp < now - t.duration_ms : Bool))

/-- The aggregation step (src/src/threshold.rs lines 171-178): `Sum` keeps the
sum; `Average` divides by the count only when the count is positive. -/
def Threshold.aggregate (t : Threshold) (value_sum value_count : Nat) : Nat :=
  match t.value_operation with
  | .Sum => value_sum
  | .Average => if value_count > 0 then value_sum / value_count else value_sum

/-- The comparison step (src/src/threshold.rs lines 180-185). -/
def Threshold.compare (t : Threshold) (value_sum : Nat) : Bool :=
  match t.threshold_type with
  | .GreaterThan => value_sum > t.value
  | .GreaterThanOrEqual => value_sum ≥ t.value
  | .LessThan => value_sum < t.value
  | .LessThanOrEqual => value_sum ≤ t.value

/-- Insertion into the group registry map performed on a match
(src/src/threshold.rs lines 187-192): `groups.entry(name).or_insert_with(||
Group::new(name)).add(ip, now + group_expiration_seconds.unwrap())`.  The
emitted Add/Update lines are settled at the `Group.add` level and discarded
here. -/
def groups_add (groups : List (String × Group)) (group_name : String) (ip_addr : IpAddr)
    (expiration : Nat) : List (String × Group) :=
  match alist_find? groups group_name with
  | some g => alist_insert groups group_name (g.add ip_addr expiration).1
  | none => groups ++ [(group_name, ((Group.new group_name).add ip_addr expiration).1)]

/-- `Threshold::stop_after_exceeded` (src/src/threshold.rs lines 121-198).
Returns the stop flag together with the updated group registry.  Post-config
`unwrap()` of `group_name` / `group_expiration_seconds` (guaranteed `Some` by
`Threshold::validate`) is embedded as `getD`. -/
def Threshold.stop_after_exceeded (t : Threshold) (stakes : List (IpAddr × Nat)) (now : Nat)
    (ip_addr : IpAddr) (recent_values : List TimestampedValue)
    (groups : List (String × Group)) : Bool × List (String × Group) :=
  if !(t.stake_gate stakes ip_addr) then (false, groups)
  else
    let w := t.window now recent_values
    let value_count := w.length
    let value_sum := (w.map TimestampedValue.value).sum
    if (match t.min_value_count with
        | some m => (value_count < m : Bool)
        | none => false) then
      (false, groups)
    else
      let value_sum := t.aggregate value_sum value_count
      if t.compare value_sum then
        (!(t.continue_after_match.getD false),
          groups_add groups (t.group_name.getD "") ip_addr
            (now + t.group_expiration_seconds.getD 0))
      else (false, groups)

/-- The full match predicate of `stop_after_exceeded`: stake gate passes, the
min-count gate passes, and the aggregated window value satisfies the
comparator. -/
def Threshold.matches (t : Threshold) (stakes : List (IpAddr × Nat)) (now : Nat)
    (ip_addr : IpAddr) (recent_values : List TimestampedValue) : Bool :=
  t.stake_gate stakes ip_addr &&
    !(match t.min_value_count with
      | some m => ((t.window now recent_values).length < m : Bool)
      | none => false) &&
    t.compare (t.aggregate ((t.window now recent_values).map TimestampedValue.value).sum
      (t.window now recent_values).length)

/-- `stop_after_exceeded` in terms of `matches`: a matching threshold adds the
ip to its group and returns `!continue_after_match`, an unmatched one changes
nothing and returns `false`. -/
theorem stop_after_exceeded_eq (t : Threshold) (stakes : List (IpAddr × Nat)) (now : Nat)
    (ip_addr : IpAddr) (recent_values : List TimestampedValue)
    (groups : List (String × Group)) :
    t.stop_after_exceeded stakes now ip_addr recent_values groups =
      if t.matches stakes now ip_addr recent_values then
        (!(t.continue_after_match.getD false),
          groups_add groups (t.group_name.getD "") ip_addr
            (now + t.group_expiration_seconds.getD 0))
      else (false, groups) := by
  unfold Threshold.stop_after_exceeded Threshold.matches
  cases hg : t.stake_gate stakes ip_addr <;>
    cases hm : (match t.min_value_count with
      | some m => ((t.window now recent_values).length < m : Bool)
      | none => false) <;>
      cases hc : t.compare (t.aggregate
          ((t.window now recent_values).map TimestampedValue.value).sum
          (t.window now recent_values).length) <;>
        simp [hg, hm, hc]

/-! ### Classification (src/src/classification.rs) -/

structure Classification where
  group_name : Option String
  group_expiration_seconds : Option Nat
  evaluate_all_thresholds : Option Bool
  thresholds : List Threshold
  max_duration_ms : Nat
  recent_values : List (IpAddr × List TimestampedValue)
deriving DecidableEq

/-- `Classification::add_value` (src/src/classification.rs lines 68-76):
append to the ip's series, creating it when absent. -/
def Classification.add_value (c : Classification) (ip_addr : IpAddr) (timestamp value : Nat) :
    Classification :=
  { c with recent_values :=
      match alist_find? c.recent_values ip_addr with
      | some vs => alist_insert c.recent_values ip_addr (vs ++ [⟨timestamp, value⟩])
      | none => c.recent_values ++ [(ip_addr, [⟨timestamp, value⟩])] }

/-- The inner evaluation loop of `Classification::periodic`
(src/src/classification.rs lines 108-116): thresholds in declared order, each
one evaluated with its side effect on the registry applied, breaking after a
stop result when `evaluate_all_thresholds` is off. -/
def run_thresholds (ts : List Threshold) (evaluate_all : Bool) (stakes : List (IpAddr × Nat))
    (now : Nat) (ip_addr : IpAddr) (recent_values : List TimestampedValue)
    (groups : List (String × Group)) : List (String × Group) :=
  match ts with
  | [] => groups
  | t :: rest =>
    let r := t.stop_after_exceeded stakes now ip_addr recent_values groups
    if r.1 && !evaluate_all then r.2
    else run_thresholds rest evaluate_all stakes now ip_addr recent_values r.2

/-- `Classification::periodic` (src/src/classification.rs lines 79-117):
pop-front every series while the front is older than `now - max_duration_ms`,
drop empty series, then evaluate the thresholds per remaining ip.  The ip
iteration order is the list order (the Rust `HashMap` order is unspecified). -/
def Classification.periodic (c : Classification) (stakes : List (IpAddr × Nat))
    (groups : List (String × Group)) (now : Nat) : Classification × List (String × Group) :=
  let retain_timestamp := now - c.max_duration_ms
  let recent_values :=
    (c.recent_values.map
      (fun p => (p.1, p.2.dropWhile (fun v => (v.timestamp < retain_timestamp : Bool))))).filter
      (fun p => !p.2.isEmpty)
  let groups := recent_values.foldl
    (fun groups p =>
      run_thresholds c.thresholds (c.evaluate_all_thresholds.getD false) stakes now p.1 p.2 groups)
    groups
  ({ c with recent_values := recent_values }, groups)

/-! ### Config (fields as consumed by src/src/state.rs; the config.rs under
src/ is a stale variant missing `known_pubkeys` and holding an older
Classification shape, so the field types follow their uses in state.rs).
Pubkey strings are taken as already parsed (`Pubkey::from_str` and the
dropping of unparsable entries are not modelled). -/

structure KnownPubkey where
  pubkey : Pubkey
  group_name : Option String
  group_expiration_seconds : Option Nat
deriving DecidableEq

structure LeaderSlotsClassification where
  group_name : String
  leader_slots : Nat
deriving DecidableEq

structure Config where
  known_pubkeys : Option (List KnownPubkey)
  failed_exceeded_quic_connections : Option Classification
  useless_quic_connection_duration_ms : Option Nat
  useless_quic_connections : Option Classification
  fee_lamports_submitted : Option Classification
  fee_microlamports_per_cu_limit : Option Classification
  fee_microlamports_per_cu_used : Option Classification
  outside_leader_slots : Option LeaderSlotsClassification
deriving DecidableEq

def Config.empty : Config := ⟨none, none, none, none, none, none, none, none⟩

/-! ### State (src/src/state.rs lines 15-62) -/

structure Peer where
  first_timestamp : Nat
  most_recent_timestamp : Nat
  tx_submitted : Nat
deriving DecidableEq

structure State where
  config : Config
  pubkey_classifications : List (Pubkey × String × Nat)
  most_recent_timestamp : Nat
  most_recent_timestamp_event_count : Nat
  leader_status : Option Bool
  peers : List (IpAddr × Peer)
  stakes : List (IpAddr × Nat)
  current_tx : List (Signature × Tx)
  pubkey_groups : List (String × List (IpAddr × Nat))
  classification_groups : List (String × Group)
deriving DecidableEq

/-- `State::new` (src/src/state.rs lines 127-164). -/
def State.new (config : Config) : State :=
  { config := config
    pubkey_classifications :=
      match config.known_pubkeys with
      | some known_pubkeys =>
        known_pubkeys.map (fun c =>
          (c.pubkey, c.group_name.getD "known_pubkeys",
            c.group_expiration_seconds.getD DEFAULT_GROUP_EXPIRATION_SECONDS))
      | none => []
    most_recent_timestamp := 0
    most_recent_timestamp_event_count := 0
    leader_status := none
    peers := []
    stakes := []
    current_tx := []
    pubkey_groups := []
    classification_groups := [] }

/-- `State::get_timestamp` (src/src/state.rs lines 167-187).  Note that, as in
the source, `most_recent_timestamp_event_count` is reset but never
incremented. -/
def State.get_timestamp (s : State) (timestamp : Nat) : State × Nat :=
  if timestamp ≤ s.most_recent_timestamp then
    if s.most_recent_timestamp_event_count = 100 then
      let s := { s with most_recent_timestamp := s.most_recent_timestamp + 1,
                        most_recent_timestamp_event_count := 0 }
      (s, s.most_recent_timestamp)
    else (s, s.most_recent_timestamp)
  else
    let s := { s with most_recent_timestamp := timestamp,
                      most_recent_timestamp_event_count := 0 }
    (s, s.most_recent_timestamp)

/-- The effective timestamps produced for a sequence of reported event
timestamps. -/
def State.effective_timestamps : State → List Nat → List Nat
  | _, [] => []
  | s, t :: ts => (s.get_timestamp t).2 :: (s.get_timestamp t).1.effective_timestamps ts

/-- `State::failed` (src/src/state.rs lines 189-200). -/
def State.failed (s : State) (timestamp : Nat) (peer_addr : IpAddr) : State :=
  let r := s.get_timestamp timestamp
  let s := r.1
  let timestamp := r.2
  match s.config.failed_exceeded_quic_connections with
  | some c =>
    { s with config := { s.config with
        failed_exceeded_quic_connections := some (c.add_value peer_addr timestamp 1) } }
  | none => s

/-- `State::started` (src/src/state.rs lines 217-262): upsert the peer, record
the stake, and apply the pubkey classifier with its raise-only expiry
discipline.  The Add/Update lines it prints carry no further state. -/
def State.started (s : State) (timestamp : Nat) (peer_addr : IpAddr)
    (peer_pubkey : Option Pubkey) (stake : Nat) : State :=
  let r := s.get_timestamp timestamp
  let s := r.1
  let timestamp := r.2
  let peers :=
    match alist_find? s.peers peer_addr with
    | some peer =>
      alist_insert s.peers peer_addr { peer with most_recent_timestamp := timestamp }
    | none => s.peers ++ [(peer_addr, ⟨timestamp, timestamp, 0⟩)]
  let stakes := alist_insert s.stakes peer_addr stake
  let pubkey_groups :=
    match peer_pubkey with
    | some peer_pubkey =>
      match alist_find? s.pubkey_classifications peer_pubkey with
      | some (group_name, group_expiration) =>
        let new_expiration := timestamp + group_expiration * 1000
        let group := (alist_find? s.pubkey_groups group_name).getD []
        let group :=
          match alist_find? group peer_addr with
          | some expiration =>
            if expiration < new_expiration then alist_insert group peer_addr new_expiration
            else group
          | none => group ++ [(peer_addr, new_expiration)]
        alist_insert s.pubkey_groups group_name group
      | none => s.pubkey_groups
    | none => s.pubkey_groups
  { s with peers := peers, stakes := stakes, pubkey_groups := pubkey_groups }

/-- `State::exceeded` (src/src/state.rs lines 202-215): a failure followed by a
start. -/
def State.exceeded (s : State) (timestamp : Nat) (peer_addr : IpAddr)
    (peer_pubkey : Option Pubkey) (stake : Nat) : State :=
  (s.failed timestamp peer_addr).started timestamp peer_addr peer_pubkey stake

/-- `State::finished` (src/src/state.rs lines 264-286). -/
def State.finished (s : State) (timestamp : Nat) (peer_addr : IpAddr) : State :=
  let r := s.get_timestamp timestamp
  let s := r.1
  let timestamp := r.2
  match alist_find? s.peers peer_addr with
  | some peer =>
    let s := { s with peers :=
      (alist_insert s.peers peer_addr { peer with most_recent_timestamp := timestamp }) }
    match s.config.useless_quic_connections with
    | some c =>
      if peer.tx_submitted = 0 ∧
          timestamp - peer.first_timestamp ≥
            (s.config.useless_quic_connection_duration_ms.getD
              DEFAULT_USELESS_QUIC_CONNECTION_DURATION_MS) then
        { s with config := { s.config with
            useless_quic_connections := some (c.add_value peer_addr timestamp 1) } }
      else s
    | none => s
  | none => s

/-- `State::votetx` (src/src/state.rs lines 288-301). -/
def State.votetx (s : State) (timestamp : Nat) (peer_addr : IpAddr) : State :=
  let r := s.get_timestamp timestamp
  let s := r.1
  let timestamp := r.2
  match alist_find? s.peers peer_addr with
  | some peer =>
    { s with peers := (alist_insert s.peers peer_addr
        { peer with most_recent_timestamp := timestamp,
                    tx_submitted := peer.tx_submitted + 1 }) }
  | none => s

/-- `State::usertx` (src/src/state.rs lines 303-326): update an existing peer
(an absent peer is NOT created), and upsert the tx ledger entry. -/
def State.usertx (s : State) (timestamp : Nat) (peer_addr : IpAddr)
    (signature : Signature) : State :=
  let r := s.get_timestamp timestamp
  let s := r.1
  let timestamp := r.2
  let peers :=
    match alist_find? s.peers peer_addr with
    | some peer =>
      alist_insert s.peers peer_addr
        { peer with most_recent_timestamp := timestamp,
                    tx_submitted := peer.tx_submitted + 1 }
    | none => s.peers
  let current_tx :=
    match alist_find? s.current_tx signature with
    | some tx => alist_insert s.current_tx signature (tx.submitted timestamp peer_addr)
    | none => s.current_tx ++ [(signature, Tx.new timestamp peer_addr)]
  { s with peers := peers, current_tx := current_tx }

/-- `State::fee` (src/src/state.rs lines 346-361): attach the fee to the tx if
its signature is still in the ledger. -/
def State.fee (s : State) (timestamp : Nat) (signature : Signature)
    (cu_limit cu_used fee : Nat) : State :=
  let r := s.get_timestamp timestamp
  let s := r.1
  match alist_find? s.current_tx signature with
  | some tx =>
    { s with current_tx :=
        alist_insert s.current_tx signature { tx with fee := some ⟨fee, cu_limit, cu_used⟩ } }
  | none => s

/-- `State::begin_leader` (src/src/state.rs lines 381-390). -/
def State.begin_leader (s : State) : State :=
  if !s.config.outside_leader_slots.isSome || !(s.leader_status.getD false) then
    { s with leader_status := some true }
  else s

/-- `State::end_leader` (src/src/state.rs lines 392-409): without an
`outside_leader_slots` configuration it falls through to `begin_leader`. -/
def State.end_leader (s : State) : State :=
  if s.config.outside_leader_slots.isSome then
    if s.leader_status.getD true then { s with leader_status := some false } else s
  else s.begin_leader

/-- `State::will_be_leader` (src/src/state.rs lines 363-379). -/
def State.will_be_leader (s : State) (_timestamp : Nat) (slots : Nat) : State :=
  match s.config.outside_leader_slots with
  | some outside_leader_slots =>
    if slots ≥ outside_leader_slots.leader_slots then s.end_leader else s.begin_leader
  | none => s.begin_leader

/-- Running one optional classification's `periodic` while threading the
group registry (src/src/state.rs lines 517-535). -/
def run_c (oc : Option Classification) (stakes : List (IpAddr × Nat)) (now : Nat)
    (groups : List (String × Group)) : Option Classification × List (String × Group) :=
  match oc with
  | some c =>
    let r := c.periodic stakes groups now
    (some r.1, r.2)
  | none => (none, groups)

/-- `State::periodic` (src/src/state.rs lines 413-564).  Besides the new state
it returns the list of fee-attribution emissions drained from the tx ledger
(the `add_value` calls made into each configured fee classification).  The
`u64` subtractions computing the two retention cutoffs are embedded as
truncated `Nat` subtraction; their partiality is settled separately with
`tx_retain_cutoff?` / `peer_retain_cutoff?`. -/
def State.periodic (s : State) (now : Nat) : State × List Emission :=
  let r := s.get_timestamp now
  let s := r.1
  let now := r.2
  let s := if s.leader_status.isNone then s.end_leader else s
  let retain_timestamp := now - TX_RETENTION_DURATION_MS
  let evicted := s.current_tx.filter (fun p => tx_is_evicted retain_timestamp p.2)
  let current_tx := s.current_tx.filter (fun p => !tx_is_evicted retain_timestamp p.2)
  let emissions := (evicted.map (fun p => tx_emissions p.2)).flatten
  let feed := fun (oc : Option Classification) (f : Fee → Nat) =>
    oc.map (fun c =>
      emissions.foldl (fun c e => c.add_value e.submitter e.timestamp (f e.fee_used)) c)
  let config := { s.config with
    fee_lamports_submitted :=
      feed s.config.fee_lamports_submitted (fun fee => fee.total)
    fee_microlamports_per_cu_limit :=
      feed s.config.fee_microlamports_per_cu_limit (fun fee => fee.total * 1000 / fee.cu_limit)
    fee_microlamports_per_cu_used :=
      feed s.config.fee_microlamports_per_cu_used (fun fee => fee.total * 1000 / fee.cu_used) }
  let r1 := run_c config.failed_exceeded_quic_connections s.stakes now s.classification_groups
  let r2 := run_c config.useless_quic_connections s.stakes now r1.2
  let r3 := run_c config.fee_lamports_submitted s.stakes now r2.2
  let r4 := run_c config.fee_microlamports_per_cu_limit s.stakes now r3.2
  let r5 := run_c config.fee_microlamports_per_cu_used s.stakes now r4.2
  let config := { config with
    failed_exceeded_quic_connections := r1.1
    useless_quic_connections := r2.1
    fee_lamports_submitted := r3.1
    fee_microlamports_per_cu_limit := r4.1
    fee_microlamports_per_cu_used := r5.1 }
  let pubkey_groups :=
    s.pubkey_groups.map (fun p => (p.1, p.2.filter (fun q => (q.2 ≥ now : Bool))))
  let groups := r5.2.map (fun p => (p.1, (p.2.periodic now).1))
  let peer_retain_timestamp := now - PEER_RETENTION_DURATION_MS
  let removed_peers :=
    s.peers.filter (fun p => (p.2.most_recent_timestamp < peer_retain_timestamp : Bool))
  let peers :=
    s.peers.filter (fun p => !(p.2.most_recent_timestamp < peer_retain_timestamp : Bool))
  let stakes := removed_peers.foldl
    (fun stakes p => stakes.filter (fun q => !(q.1 = p.1 : Bool))) s.stakes
  ({ s with config := config, current_tx := current_tx, classification_groups := groups,
            pubkey_groups := pubkey_groups, peers := peers, stakes := stakes }, emissions)

/-! ### Checked `u64` subtraction (for the unchecked window cutoffs) -/

/-- Checked `u64` subtraction: defined exactly when no underflow occurs (the
unchecked Rust `-` panics on underflow in debug builds). -/
def u64_sub? (a b : Nat) : Option Nat := if a < b then none else some (a - b)

/-- The subtraction at src/src/state.rs line 483: `now - TX_RETENTION_DURATION_MS`. -/
def tx_retain_cutoff? (now : Nat) : Option Nat := u64_sub? now TX_RETENTION_DURATION_MS

/-- The subtraction at src/src/state.rs line 554: `now - PEER_RETENTION_DURATION_MS`. -/
def peer_retain_cutoff? (now : Nat) : Option Nat := u64_sub? now PEER_RETENTION_DURATION_MS

/-- The subtraction at src/src/classification.rs line 86: `now - max_duration_ms`. -/
def classification_retain_cutoff? (c : Classification) (now : Nat) : Option Nat :=
  u64_sub? now c.max_duration_ms

/-- The subtraction at src/src/threshold.rs line 148: `now - duration_ms`. -/
def threshold_use_timestamp? (t : Threshold) (now : Nat) : Option Nat :=
  u64_sub? now t.duration_ms

/-! ### Helper lemmas about the clock -/

theorem get_timestamp_le (s : State) (t : Nat) :
    s.most_recent_timestamp ≤ (s.get_timestamp t).2 := by
  unfold State.get_timestamp
  by_cases h1 : t ≤ s.most_recent_timestamp <;>
    by_cases h2 : s.most_recent_timestamp_event_count = 100 <;>
      simp [h1, h2] <;> omega

theorem get_timestamp_fst (s : State) (t : Nat) :
    (s.get_timestamp t).1.most_recent_timestamp = (s.get_timestamp t).2 := by
  unfold State.get_timestamp
  by_cases h1 : t ≤ s.most_recent_timestamp <;>
    by_cases h2 : s.most_recent_timestamp_event_count = 100 <;>
      simp [h1, h2]

theorem get_timestamp_count_le (s : State) (t : Nat) :
    (s.get_timestamp t).1.most_recent_timestamp_event_count ≤
      s.most_recent_timestamp_event_count := by
  unfold State.get_timestamp
  by_cases h1 : t ≤ s.most_recent_timestamp <;>
    by_cases h2 : s.most_recent_timestamp_event_count = 100 <;>
      simp [h1, h2]

theorem effective_timestamps_chain (s : State) (ts : List Nat) :
    List.Chain' (· ≤ ·) (s.most_recent_timestamp :: s.effective_timestamps ts) := by
  induction ts generalizing s with
  | nil => simp [State.effective_timestamps]
  | cons t ts ih =>
    simp only [State.effective_timestamps]
    refine List.chain'_cons.mpr ⟨get_timestamp_le s t, ?_⟩
    have h := ih (s.get_timestamp t).1
    rwa [get_timestamp_fst s t] at h

/-- A stale event (reported timestamp at most the current effective one) with
the event counter away from 100 leaves the whole state unchanged. -/
theorem get_timestamp_stale (s : State) (t : Nat)
    (hc : s.most_recent_timestamp_event_count ≠ 100)
    (ht : t ≤ s.most_recent_timestamp) :
    s.get_timestamp t = (s, s.most_recent_timestamp) := by
  unfold State.get_timestamp
  simp [ht, hc]

theorem effective_timestamps_replicate_stale (s : State) (t : Nat) (n : Nat)
    (hc : s.most_recent_timestamp_event_count ≠ 100)
    (ht : t ≤ s.most_recent_timestamp) :
    s.effective_timestamps (List.replicate n t) =
      List.replicate n s.most_recent_timestamp := by
  induction n with
  | zero => rfl
  | succ n ih =>
    simp only [List.replicate_succ, State.effective_timestamps,
      get_timestamp_stale s t hc ht, ih]

/-- C1: effective timestamps are non-decreasing for every event sequence (this
half holds); but the per-timestamp event counter is never incremented by
`State::get_timestamp` (nor anywhere else), so the `== 100` branch never fires
and a run of 100 events whose reported timestamps are at most the current
effective timestamp leaves the effective timestamp unchanged — it never
advances by 1 ms as claimed (and as the code's own comment intends). -/
theorem C1_clock_monotone_but_run_never_advances :
    (∀ (s : State) (ts : List Nat),
        List.Chain' (· ≤ ·) (s.most_recent_timestamp :: s.effective_timestamps ts))
  ∧ (∀ (s : State) (t : Nat),
        (s.get_timestamp t).1.most_recent_timestamp_event_count ≤
          s.most_recent_timestamp_event_count)
  ∧ ({ State.new Config.empty with most_recent_timestamp := 5 } :
        State).effective_timestamps (List.replicate 100 5) = List.replicate 100 5 :=
  ⟨effective_timestamps_chain, get_timestamp_count_le,
    effective_timestamps_replicate_stale _ 5 100 (by decide) (by decide)⟩

/-! ### C2: first-submitter fee attribution -/

/-- C2: every Tx evicted by the ledger drain of `State::periodic` (first
submission older than `now - TX_RETENTION_DURATION_MS`) has its attribution
values emitted in submission order, each under the submission's own timestamp;
the submission at index 0 carries the landed fee, every later one the
`zero_fee` sentinel, and (for a nonzero landed total) exactly one emission
carries `fee.total`. -/
theorem C2_first_submitter_attribution (rt : Nat) (sig : Signature) (tx : Tx) (f : Fee)
    (hev : tx_is_evicted rt tx = true) (hf : tx.fee = some f) (hs : tx.submissions ≠ []) :
    drain_emissions rt [(sig, tx)] = tx_emissions tx
  ∧ (tx_emissions tx).map (fun e => (e.submitter, e.timestamp)) =
      tx.submissions.map (fun sub => (sub.submitter, sub.timestamp))
  ∧ (tx_emissions tx).map Emission.fee_used =
      f :: List.replicate (tx.submissions.length - 1) zero_fee
  ∧ (f.total ≠ 0 →
      (tx_emissions tx).countP (fun e => e.fee_used.total == f.total) = 1) := by
  obtain ⟨first, rest, hsub⟩ : ∃ a l, tx.submissions = a :: l := by
    cases h : tx.submissions with
    | nil => exact absurd h hs
    | cons a l => exact ⟨a, l, rfl⟩
  refine ⟨?_, ?_, ?_, ?_⟩
  · simp [drain_emissions, hev]
  · simp [tx_emissions, hsub]
  · simp only [tx_emissions, hsub, hf, Option.getD_some, List.map_cons, List.map_map,
      List.length_cons, Nat.add_sub_cancel, List.cons.injEq, true_and]
    rw [show (Emission.fee_used ∘ fun sub : SubmittedTx =>
        (⟨sub.submitter, sub.timestamp, zero_fee⟩ : Emission)) = fun _ => zero_fee from rfl,
      List.map_const']
  · intro h0
    simp only [tx_emissions, hsub, hf, Option.getD_some, List.countP_cons, List.countP_map]
    have hhead : (f.total == f.total) = true := by simp
    have htail : List.countP ((fun e : Emission => e.fee_used.total == f.total) ∘
        (fun sub : SubmittedTx => ⟨sub.submitter, sub.timestamp, zero_fee⟩)) rest = 0 := by
      apply List.countP_eq_zero.mpr
      intro a _
      simp only [Function.comp_apply, zero_fee]
      exact by simpa using fun h => h0 h.symm
    simp [hhead, htail]

def txW2 : Tx := ⟨[1, 2], [⟨100, 1⟩, ⟨200, 2⟩], some ⟨5000, 1000, 800⟩⟩

theorem C2_first_submitter_attribution_witness :
    drain_emissions 80000 [(9, txW2)] = tx_emissions txW2
  ∧ (tx_emissions txW2).map (fun e => (e.submitter, e.timestamp)) =
      txW2.submissions.map (fun sub => (sub.submitter, sub.timestamp))
  ∧ (tx_emissions txW2).map Emission.fee_used =
      (⟨5000, 1000, 800⟩ : Fee) :: List.replicate (txW2.submissions.length - 1) zero_fee
  ∧ ((5000 : Nat) ≠ 0 →
      (tx_emissions txW2).countP (fun e => e.fee_used.total == (5000 : Nat)) = 1) :=
  C2_first_submitter_attribution 80000 9 txW2 ⟨5000, 1000, 800⟩ (by decide) rfl (by decide)

/-! ### C3: zero divisors in fee attribution -/

/-- Event sequence reaching a zero divisor: a UserTx followed by a Fee event
reporting `cu_limit = 0`. -/
def sC3 : State := ((State.new Config.empty).usertx 50 7 1).fee 60 1 0 800 5000

def txC3 : Tx := ⟨[7], [⟨50, 7⟩], some ⟨5000, 0, 800⟩⟩

/-- C3 counterexample: after `UserTx(ts=50, ip=7, sig=1)` and
`Fee(ts=60, sig=1, cu_limit=0, cu_used=800, fee=5000)` the ledger holds a tx
whose eviction at `periodic(200000)` performs `(fee.total * 1000) / 0` on the
first (landed) submission: the sentinel only protects non-landed and non-first
submissions, so the claimed "never divides by zero" is false. -/
theorem C3_counterexample :
    alist_find? sC3.current_tx 1 = some txC3
  ∧ tx_is_evicted (200000 - TX_RETENTION_DURATION_MS) txC3 = true
  ∧ tx_divisions_defined txC3 = false := by decide

/-- C3 amended: the divisions at Tx eviction have nonzero divisors provided
every landed fee itself reports nonzero `cu_limit` and `cu_used`; the
`zero_fee` sentinel (`{0,1,1}`) keeps all non-landed and non-first emissions
defined unconditionally. -/
theorem C3_divisions_defined (tx : Tx)
    (h : ∀ f, tx.fee = some f → f.cu_limit ≠ 0 ∧ f.cu_used ≠ 0) :
    tx_divisions_defined tx = true := by
  have hz : ∀ g : Fee, g = tx.fee.getD zero_fee ∨ g = zero_fee →
      (g.cu_limit != 0 && g.cu_used != 0) = true := by
    intro g hg
    have hok : g.cu_limit ≠ 0 ∧ g.cu_used ≠ 0 := by
      rcases hg with hg | hg
      · cases hf : tx.fee with
        | none => subst hg; rw [hf]; exact ⟨one_ne_zero, one_ne_zero⟩
        | some f => subst hg; rw [hf]; exact h f hf
      · subst hg; exact ⟨one_ne_zero, one_ne_zero⟩
    simp [hok.1, hok.2]
  unfold tx_divisions_defined
  rw [List.all_eq_true]
  intro e he
  unfold tx_emissions at he
  revert he
  cases tx.submissions with
  | nil => intro he; exact absurd he (List.not_mem_nil e)
  | cons first rest =>
    intro he
    rcases List.mem_cons.mp he with he | he
    · subst he; exact hz _ (Or.inl rfl)
    · obtain ⟨sub, _, rfl⟩ := List.mem_map.mp he
      exact hz _ (Or.inr rfl)

def txW3 : Tx := ⟨[1], [⟨10, 1⟩], none⟩

theorem C3_divisions_defined_witness : tx_divisions_defined txW3 = true :=
  C3_divisions_defined txW3 (fun _ hf => Option.noConfusion hf)

/-! ### C4: group add raises only -/

theorem alist_find?_append_of_some {κ β : Type} [DecidableEq κ]
    (m m' : List (κ × β)) (k : κ) (v : β) (h : alist_find? m k = some v) :
    alist_find? (m ++ m') k = some v := by
  induction m with
  | nil => exact absurd h (by simp [alist_find?])
  | cons p rest ih =>
    by_cases hp : p.1 = k
    · simp only [alist_find?, hp, if_pos rfl] at h ⊢
      · exact h
    · simp only [alist_find?, hp, if_false] at h ⊢
      · exact ih h

/-- A single `add` (for any ip and expiry) keeps every present member present
and never lowers its expiry. -/
theorem Group.add_mono (g : Group) (ip ip' : IpAddr) (expiration e : Nat)
    (hfind : alist_find? g.members ip = some e) :
    ∃ e', alist_find? (g.add ip' expiration).1.members ip = some e' ∧ e ≤ e' := by
  unfold Group.add
  cases hfind' : alist_find? g.members ip' with
  | none =>
    exact ⟨e, alist_find?_append_of_some _ _ _ _ hfind, le_refl e⟩
  | some e0 =>
    by_cases hlt : e0 < expiration
    · simp only [if_pos hlt]
      by_cases hip : ip' = ip
      · subst hip
        rw [hfind] at hfind'
        cases hfind'
        exact ⟨expiration, alist_find?_insert_self _ _ _, le_of_lt hlt⟩
      · rw [alist_find?_insert_ne _ _ _ _ hip]
        exact ⟨e, hfind, le_refl e⟩
    · simp only [if_neg hlt]
      exact ⟨e, hfind, le_refl e⟩

/-- C4: `add(ip, expiry)` inserts an absent ip and emits an Add line; raises a
strictly lower expiry and emits an Update line; otherwise changes nothing and
emits nothing.  Consequently a member's expiry never decreases, across any
sequence of `add` calls. -/
theorem C4_group_add_raise_only (g : Group) (ip : IpAddr) (expiration : Nat) :
    (alist_find? g.members ip = none →
        alist_find? (g.add ip expiration).1.members ip = some expiration ∧
        (g.add ip expiration).2 = [.add ip g.name expiration])
  ∧ (∀ e, alist_find? g.members ip = some e → e < expiration →
        alist_find? (g.add ip expiration).1.members ip = some expiration ∧
        (g.add ip expiration).2 = [.update ip g.name expiration])
  ∧ (∀ e, alist_find? g.members ip = some e → ¬ e < expiration →
        (g.add ip expiration).1 = g ∧ (g.add ip expiration).2 = [])
  ∧ (∀ e e', alist_find? g.members ip = some e →
        alist_find? (g.add ip expiration).1.members ip = some e' → e ≤ e')
  ∧ (∀ (ops : List (IpAddr × Nat)) e, alist_find? g.members ip = some e →
        ∃ e', alist_find? (g.add_all ops).members ip = some e' ∧ e ≤ e') := by
  refine ⟨?_, ?_, ?_, ?_, ?_⟩
  · intro hnone
    unfold Group.add
    rw [hnone]
    exact ⟨by rw [alist_find?_append_of_none _ _ _ hnone]; simp [alist_find?], rfl⟩
  · intro e hsome hlt
    unfold Group.add
    rw [hsome]
    simp only [if_pos hlt]
    exact ⟨alist_find?_insert_self _ _ _, by trivial⟩
  · intro e hsome hge
    unfold Group.add
    rw [hsome]
    simp only [if_neg hge]
    exact ⟨by trivial, by trivial⟩
  · intro e e' hsome hsome'
    obtain ⟨e'', hfind'', hle⟩ := Group.add_mono g ip ip expiration e hsome
    rw [hsome'] at hfind''
    cases hfind''
    exact hle
  · intro ops
    induction ops generalizing g with
    | nil => exact fun e he => ⟨e, he, le_refl e⟩
    | cons op rest ih =>
      intro e he
      obtain ⟨e1, h1, hle1⟩ := Group.add_mono g ip op.1 op.2 e he
      obtain ⟨e', h', hle'⟩ := ih _ e1 h1
      exact ⟨e', h', le_trans hle1 hle'⟩

theorem C4_group_add_raise_only_witness :
    alist_find? ((Group.mk "g" [(7, 10)]).add 7 99).1.members 7 = some 99 ∧
    ((Group.mk "g" [(7, 10)]).add 7 99).2 = [.update 7 "g" 99] :=
  (C4_group_add_raise_only ⟨"g", [(7, 10)]⟩ 7 99).2.1 10 rfl (by decide)

/-! ### C5: Average over an empty window -/

def tC5 : Threshold :=
  ⟨some "g", some 60, none, none, none, .Average, .LessThan, 5, 1000, none⟩

/-- C5 counterexample: an `Average` threshold with a `less_than` comparator and
an empty window (the one series entry is older than `now - duration_ms`) DOES
match: the sum stays 0, `0 < 5` holds, the ip is added to the group and the
stop flag is returned — the claim that an empty window is never matched for
every comparator is false. -/
theorem C5_counterexample :
    (tC5.window 2000 [⟨0, 9⟩]).length = 0
  ∧ tC5.value_operation = .Average
  ∧ (tC5.stop_after_exceeded [] 2000 7 [⟨0, 9⟩] []).1 = true
  ∧ (tC5.stop_after_exceeded [] 2000 7 [⟨0, 9⟩] []).2 =
      [("g", ⟨"g", [(7, 2060)]⟩)] := by decide

/-- C5 amended: with an empty window the division `sum / count` is never
performed (the `count > 0` guard makes `Average` return the untouched sum,
which is 0), and the threshold decision reduces to comparing 0 against the
configured value: it is unmatched for `greater_than` but IS matched for
`less_than_or_equal_to` (and for `less_than` with a positive value). -/
theorem C5_average_empty_window (t : Threshold) (stakes : List (IpAddr × Nat)) (now : Nat)
    (ip_addr : IpAddr) (recent_values : List TimestampedValue)
    (havg : t.value_operation = .Average)
    (hempty : (t.window now recent_values).length = 0) :
    t.aggregate ((t.window now recent_values).map TimestampedValue.value).sum
        (t.window now recent_values).length = 0
  ∧ (t.stake_gate stakes ip_addr = true → t.min_value_count = none →
      t.matches stakes now ip_addr recent_values = t.compare 0)
  ∧ (t.threshold_type = .GreaterThan → t.compare 0 = false)
  ∧ (t.threshold_type = .LessThanOrEqual → t.compare 0 = true) := by
  have hnil : t.window now recent_values = [] := List.length_eq_zero.mp hempty
  have hagg : t.aggregate ((t.window now recent_values).map TimestampedValue.value).sum
      (t.window now recent_values).length = 0 := by
    rw [hnil]
    simp [Threshold.aggregate, havg]
  refine ⟨hagg, ?_, ?_, ?_⟩
  · intro hgate hmin
    unfold Threshold.matches
    rw [hagg, hgate, hmin]
    simp
  · intro hty
    simp [Threshold.compare, hty]
  · intro hty
    simp [Threshold.compare, hty]

def tW5 : Threshold :=
  ⟨some "g", some 60, none, none, none, .Average, .GreaterThan, 5, 1000, none⟩

theorem C5_average_empty_window_witness :
    tW5.aggregate ((tW5.window 2000 [⟨0, 9⟩]).map TimestampedValue.value).sum
        (tW5.window 2000 [⟨0, 9⟩]).length = 0
  ∧ (tW5.stake_gate [] 7 = true → tW5.min_value_count = none →
      tW5.matches [] 2000 7 [⟨0, 9⟩] = tW5.compare 0)
  ∧ (tW5.threshold_type = .GreaterThan → tW5.compare 0 = false)
  ∧ (tW5.threshold_type = .LessThanOrEqual → tW5.compare 0 = true) :=
  C5_average_empty_window tW5 [] 2000 7 [⟨0, 9⟩] rfl (by decide)

/-! ### C6: scenario S4, fee attribution values -/

def tC6 : Threshold :=
  ⟨some "gfee", some 1, none, none, none, .Sum, .GreaterThan, 1000000000, 150000, none⟩

def cC6 : Classification := ⟨some "gfee", some 1, none, [tC6], 150000, []⟩

def cfgC6 : Config :=
  { Config.empty with
    fee_lamports_submitted := some cC6
    fee_microlamports_per_cu_limit := some cC6
    fee_microlamports_per_cu_used := some cC6 }

/-- Scenario S4: `UserTx(100, A=1, S=5)`, `UserTx(200, B=2, S=5)`,
`UserTx(300, A=1, S=5)`, `Fee(400, S=5, cu_limit=1000, cu_used=800, fee=5000)`. -/
def sC6 : State :=
  ((((State.new cfgC6).usertx 100 1 5).usertx 200 2 5).usertx 300 1 5).fee 400 5 1000 800 5000

/-- C6 counterexample: the drain at `periodic(200000)` does NOT deliver the
claimed values `(5000, 5, 6)` for A@100. -/
theorem C6_counterexample :
    ¬ ((sC6.periodic 200000).2.map (fun e => (e.submitter, e.timestamp, emission_values e)) =
        [(1, 100, 5000, 5, 6), (2, 200, 0, 0, 0)]) := by decide

/-- C6 amended: the drain at `periodic(200000)` delivers to the three fee
Classifications exactly two emissions — for A@100 the values
`total = 5000`, `(5000 × 1000) / 1000 = 5000` µL/CU-limit and
`(5000 × 1000) / 800 = 6250` µL/CU-used, and for B@200 the values `(0, 0, 0)`;
A's repeated submission at ts=300 contributes nothing. -/
theorem C6_scenario_values :
    (sC6.periodic 200000).2.map (fun e => (e.submitter, e.timestamp, emission_values e)) =
      [(1, 100, 5000, 5000, 6250), (2, 200, 0, 0, 0)] := by decide

/-! ### C7: first-match-stops vs evaluate-all -/

/-- C7: for a Classification holding thresholds `[t1, t2]` that both match one
ip's series (with `t1.continue_after_match` defaulted/false): with
`evaluate_all_thresholds = false` only t1's group receives the ip — the match
returns the stop flag and t2 is never evaluated — while with
`evaluate_all_thresholds = true` both groups receive it. -/
theorem C7_first_match_vs_evaluate_all
    (stakes : List (IpAddr × Nat)) (now : Nat) (ip_addr : IpAddr)
    (vs : List TimestampedValue) (t1 t2 : Threshold) (g1 g2 : String) (d : Nat)
    (h1 : t1.matches stakes now ip_addr vs = true)
    (h2 : t2.matches stakes now ip_addr vs = true)
    (hg1 : t1.group_name = some g1) (hg2 : t2.group_name = some g2) (hne : g1 ≠ g2)
    (hc1 : t1.continue_after_match.getD false = false)
    (hvs : vs ≠ [])
    (hgc : ∀ v ∈ vs, ¬ v.timestamp < now - d) :
    (Classification.periodic ⟨some g1, some 1, some false, [t1, t2], d, [(ip_addr, vs)]⟩
        stakes [] now).2 =
      [(g1, ⟨g1, [(ip_addr, now + t1.group_expiration_seconds.getD 0)]⟩)]
  ∧ (Classification.periodic ⟨some g1, some 1, some true, [t1, t2], d, [(ip_addr, vs)]⟩
        stakes [] now).2 =
      [(g1, ⟨g1, [(ip_addr, now + t1.group_expiration_seconds.getD 0)]⟩),
       (g2, ⟨g2, [(ip_addr, now + t2.group_expiration_seconds.getD 0)]⟩)] := by
  have hdrop : vs.dropWhile (fun v => (v.timestamp < now - d : Bool)) = vs := by
    cases vs with
    | nil => rfl
    | cons v rest =>
      rw [List.dropWhile_cons]
      have hv := hgc v (List.mem_cons_self v rest)
      simp [hv]
  have hempty : vs.isEmpty = false := by
    cases vs with
    | nil => exact absurd rfl hvs
    | cons v rest => rfl
  have hstop1 : t1.stop_after_exceeded stakes now ip_addr vs [] =
      (true, [(g1, ⟨g1, [(ip_addr, now + t1.group_expiration_seconds.getD 0)]⟩)]) := by
    rw [stop_after_exceeded_eq, h1]
    simp [hc1, hg1, groups_add, alist_find?, Group.new, Group.add]
  have hstop2 : (t2.stop_after_exceeded stakes now ip_addr vs
      [(g1, ⟨g1, [(ip_addr, now + t1.group_expiration_seconds.getD 0)]⟩)]).2 =
      [(g1, ⟨g1, [(ip_addr, now + t1.group_expiration_seconds.getD 0)]⟩),
       (g2, ⟨g2, [(ip_addr, now + t2.group_expiration_seconds.getD 0)]⟩)] := by
    rw [stop_after_exceeded_eq, h2]
    simp [hg2, groups_add, alist_find?, hne, Group.new, Group.add]
  have hrunF : run_thresholds [t1, t2] false stakes now ip_addr vs [] =
      [(g1, ⟨g1, [(ip_addr, now + t1.group_expiration_seconds.getD 0)]⟩)] := by
    simp [run_thresholds, hstop1]
  have hrunT : run_thresholds [t1, t2] true stakes now ip_addr vs [] =
      [(g1, ⟨g1, [(ip_addr, now + t1.group_expiration_seconds.getD 0)]⟩),
       (g2, ⟨g2, [(ip_addr, now + t2.group_expiration_seconds.getD 0)]⟩)] := by
    simp [run_thresholds, hstop1, hstop2]
  constructor
  · simp [Classification.periodic, hdrop, hempty, hrunF]
  · simp [Classification.periodic, hdrop, hempty, hrunT]

def tW7a : Threshold :=
  ⟨some "a", some 10, none, none, none, .Sum, .GreaterThan, 5, 1000, none⟩

def tW7b : Threshold :=
  ⟨some "b", some 20, none, none, none, .Sum, .GreaterThan, 5, 1000, none⟩

theorem C7_first_match_vs_evaluate_all_witness :
    (Classification.periodic ⟨some "a", some 1, some false, [tW7a, tW7b], 1000,
        [(7, [⟨900, 20⟩])]⟩ [] [] 1000).2 = [("a", ⟨"a", [(7, 1010)]⟩)]
  ∧ (Classification.periodic ⟨some "a", some 1, some true, [tW7a, tW7b], 1000,
        [(7, [⟨900, 20⟩])]⟩ [] [] 1000).2 =
      [("a", ⟨"a", [(7, 1010)]⟩), ("b", ⟨"b", [(7, 1020)]⟩)] :=
  C7_first_match_vs_evaluate_all [] 1000 7 [⟨900, 20⟩] tW7a tW7b "a" "b" 1000
    (by decide) (by decide) rfl rfl (by decide) rfl (by decide) (by decide)

/-! ### C8: Peer creation -/

theorem get_timestamp_peers (s : State) (t : Nat) :
    (s.get_timestamp t).1.peers = s.peers := by
  unfold State.get_timestamp
  by_cases h1 : t ≤ s.most_recent_timestamp <;>
    by_cases h2 : s.most_recent_timestamp_event_count = 100 <;>
      simp [h1, h2]

theorem get_timestamp_current_tx (s : State) (t : Nat) :
    (s.get_timestamp t).1.current_tx = s.current_tx := by
  unfold State.get_timestamp
  by_cases h1 : t ≤ s.most_recent_timestamp <;>
    by_cases h2 : s.most_recent_timestamp_event_count = 100 <;>
      simp [h1, h2]

/-- C8 counterexample: `UserTx` never creates a Peer — on a state with no peer
entry for the ip, `usertx` leaves the peer table untouched (the spec's §7
"events referring to unknown peers are dropped" is what the code does). -/
theorem C8_counterexample :
    ((State.new Config.empty).usertx 100 7 1).peers = []
  ∧ alist_find? ((State.new Config.empty).usertx 100 7 1).peers 7 = none := by decide

/-- C8 amended: a Peer record is created on the first `Started` (hence also
`Exceeded`) event for its ip, with first and last timestamps equal to the
effective timestamp; `usertx` on a state with no Peer entry for the ip leaves
the peer table without an entry for it — it only upserts the Tx ledger
(creating the Tx with the effective timestamp when the signature is new). -/
theorem C8_peer_creation (s : State) (ts : Nat) (ip : IpAddr) (pk : Option Pubkey)
    (stake : Nat) (sig : Signature) (hp : alist_find? s.peers ip = none) :
    alist_find? (s.started ts ip pk stake).peers ip =
      some ⟨(s.get_timestamp ts).2, (s.get_timestamp ts).2, 0⟩
  ∧ alist_find? (s.usertx ts ip sig).peers ip = none
  ∧ (alist_find? s.current_tx sig = none →
      alist_find? (s.usertx ts ip sig).current_tx sig =
        some (Tx.new (s.get_timestamp ts).2 ip)) := by
  have hp' : alist_find? (s.get_timestamp ts).1.peers ip = none := by
    rw [get_timestamp_peers]; exact hp
  refine ⟨?_, ?_, ?_⟩
  · simp only [State.started, hp']
    rw [alist_find?_append_of_none _ _ _ hp']
    simp [alist_find?, get_timestamp_fst]
  · simp only [State.usertx, hp']
  · intro hct
    have hct' : alist_find? (s.get_timestamp ts).1.current_tx sig = none := by
      rw [get_timestamp_current_tx]; exact hct
    simp only [State.usertx, hp', hct']
    rw [alist_find?_append_of_none _ _ _ hct']
    simp [alist_find?, get_timestamp_fst]

theorem C8_peer_creation_witness :
    alist_find? ((State.new Config.empty).started 5 7 none 0).peers 7 = some ⟨5, 5, 0⟩
  ∧ alist_find? ((State.new Config.empty).usertx 5 7 1).peers 7 = none
  ∧ (alist_find? (State.new Config.empty).current_tx 1 = none →
      alist_find? ((State.new Config.empty).usertx 5 7 1).current_tx 1 =
        some (Tx.new 5 7)) :=
  C8_peer_creation (State.new Config.empty) 5 7 none 0 1 rfl

/-! ### C9: Unknown leader status at the tick -/

theorem get_timestamp_leader (s : State) (t : Nat) :
    (s.get_timestamp t).1.leader_status = s.leader_status := by
  unfold State.get_timestamp
  by_cases h1 : t ≤ s.most_recent_timestamp <;>
    by_cases h2 : s.most_recent_timestamp_event_count = 100 <;>
      simp [h1, h2]

theorem get_timestamp_config (s : State) (t : Nat) :
    (s.get_timestamp t).1.config = s.config := by
  unfold State.get_timestamp
  by_cases h1 : t ≤ s.most_recent_timestamp <;>
    by_cases h2 : s.most_recent_timestamp_event_count = 100 <;>
      simp [h1, h2]

/-- C9 counterexample: on a configuration without `outside_leader_slots`, an
Unknown leader status at the tick is forced to Leader (`Some(true)`), not
NotLeader — `end_leader` falls through to `begin_leader` when the
configuration is absent. -/
theorem C9_counterexample :
    (State.new Config.empty).leader_status = none
  ∧ ((State.new Config.empty).periodic 300000000).1.leader_status = some true
  ∧ (some true ≠ (some false : Option Bool)) := by decide

/-- C9 amended: at the tick, an Unknown leader status is forced to NotLeader
exactly when `outside_leader_slots` is configured; without that configuration
it is forced to Leader (peers are treated as if the validator were always in
leader slots). -/
theorem C9_unknown_leader_forced (s : State) (now : Nat) (h : s.leader_status = none) :
    (s.periodic now).1.leader_status = some (!s.config.outside_leader_slots.isSome) := by
  have hl : (s.get_timestamp now).1.leader_status = none := by
    rw [get_timestamp_leader]; exact h
  simp only [State.periodic, hl, Option.isNone_none, if_true]
  cases hc : s.config.outside_leader_slots with
  | none =>
    simp [State.end_leader, State.begin_leader, get_timestamp_config, hc, hl]
  | some o =>
    simp [State.end_leader, State.begin_leader, get_timestamp_config, hc, hl]

theorem C9_unknown_leader_forced_witness :
    ((State.new Config.empty).periodic 0).1.leader_status = some true :=
  C9_unknown_leader_forced (State.new Config.empty) 0 rfl

/-! ### C10: unchecked window-cutoff subtractions -/

/-- C10: the four window cutoffs are computed by unchecked `u64` subtraction
and are defined only when `now` is at least the subtrahend:
`State::periodic` needs `now ≥ TX_RETENTION_DURATION_MS = 120000` and
`now ≥ PEER_RETENTION_DURATION_MS = 259200000`, `Classification::periodic`
needs `now ≥ max_duration_ms`, and threshold evaluation needs
`now ≥ duration_ms`; below the bound the subtraction underflows (`none`,
a debug-build panic in Rust) instead of clamping to 0, and on the defined
domain it agrees with the truncated subtraction the embeddings use. -/
theorem C10_unchecked_window_cutoffs (now : Nat) :
    TX_RETENTION_DURATION_MS = 120000
  ∧ PEER_RETENTION_DURATION_MS = 259200000
  ∧ (now < TX_RETENTION_DURATION_MS → tx_retain_cutoff? now = none)
  ∧ (TX_RETENTION_DURATION_MS ≤ now →
      tx_retain_cutoff? now = some (now - TX_RETENTION_DURATION_MS))
  ∧ (now < PEER_RETENTION_DURATION_MS → peer_retain_cutoff? now = none)
  ∧ (PEER_RETENTION_DURATION_MS ≤ now →
      peer_retain_cutoff? now = some (now - PEER_RETENTION_DURATION_MS))
  ∧ (∀ c : Classification, now < c.max_duration_ms →
      classification_retain_cutoff? c now = none)
  ∧ (∀ c : Classification, c.max_duration_ms ≤ now →
      classification_retain_cutoff? c now = some (now - c.max_duration_ms))
  ∧ (∀ t : Threshold, now < t.duration_ms → threshold_use_timestamp? t now = none)
  ∧ (∀ t : Threshold, t.duration_ms ≤ now →
      threshold_use_timestamp? t now = some (now - t.duration_ms)) := by
  refine ⟨rfl, rfl, ?_, ?_, ?_, ?_, fun c => ?_, fun c => ?_, fun t => ?_, fun t => ?_⟩ <;>
    · intro h
      simp [tx_retain_cutoff?, peer_retain_cutoff?, classification_retain_cutoff?,
        threshold_use_timestamp?, u64_sub?, h, Nat.not_lt.mpr]

theorem C10_unchecked_window_cutoffs_witness :
    tx_retain_cutoff? 119999 = none
  ∧ tx_retain_cutoff? 120000 = some 0
  ∧ peer_retain_cutoff? 200000 = none
  ∧ peer_retain_cutoff? 259200005 = some 5 := by
  refine ⟨?_, ?_, ?_, ?_⟩
  · exact (C10_unchecked_window_cutoffs 119999).2.2.1 (by decide)
  · exact (C10_unchecked_window_cutoffs 120000).2.2.2.1 (by decide)
  · exact (C10_unchecked_window_cutoffs 200000).2.2.2.2.1 (by decide)
  · exact (C10_unchecked_window_cutoffs 259200005).2.2.2.2.2.1 (by decide)

end TxIngest
